import Mathlib

/-!
Shallow embedding of the Game of Life core (world model, tick engine and
pattern-construction helpers) together with theorems settling the spec claims.
Coordinates are integers, cell lists are Lean lists, the JS `Map`-based
de-duplication is modelled by an order-preserving association-list upsert.
-/

namespace GameOfLife

structure Location where
  x : Int
  y : Int
deriving DecidableEq, Repr

inductive CellState where
  | alive
  | dead
deriving DecidableEq, Repr

structure Cell where
  location : Location
  state : CellState
deriving DecidableEq, Repr

def isAlive (cell : Cell) : Bool := cell.state == CellState.alive

def isDead (cell : Cell) : Bool := !isAlive cell

def kill (cell : Cell) : Cell := { cell with state := CellState.dead }

def vivify (cell : Cell) : Cell := { cell with state := CellState.alive }

structure World where
  time : Nat
  cells : List Cell
deriving DecidableEq, Repr

def isCellAtLocation (cell : Cell) (location : Location) : Bool :=
  cell.location.x == location.x && cell.location.y == location.y

def getCell (world : World) (location : Location) : Cell :=
  (world.cells.find? (fun c => isCellAtLocation c location)).getD
    { location := location, state := CellState.dead }

def neighborLocations (l : Location) : List Location :=
  [ { x := l.x - 1, y := l.y - 1 },
    { x := l.x,     y := l.y - 1 },
    { x := l.x + 1, y := l.y - 1 },
    { x := l.x - 1, y := l.y },
    { x := l.x + 1, y := l.y },
    { x := l.x - 1, y := l.y + 1 },
    { x := l.x,     y := l.y + 1 },
    { x := l.x + 1, y := l.y + 1 } ]

def getCellNeighbors (world : World) (cell : Cell) : List Cell :=
  (neighborLocations cell.location).map (getCell world)

def getLivingCellNeighbors (world : World) (cell : Cell) : List Cell :=
  (getCellNeighbors world cell).filter isAlive

def getDeadCellNeighbors (world : World) (cell : Cell) : List Cell :=
  (getCellNeighbors world cell).filter isDead

def getNextTickCell (world : World) (cell : Cell) : Cell :=
  let numLivingNeighbors := (getLivingCellNeighbors world cell).length
  if isAlive cell then
    if numLivingNeighbors == 2 || numLivingNeighbors == 3 then cell else kill cell
  else
    if numLivingNeighbors == 3 then vivify cell else cell

/-- Order-preserving insert-or-update, modelling JS `Map.set`: an existing key
keeps its position and gets the new value; a new key goes to the end. -/
def upsert : List (Location × Cell) → Location → Cell → List (Location × Cell)
  | [], k, v => [(k, v)]
  | (k', v') :: rest, k, v =>
    if k' = k then (k, v) :: rest else (k', v') :: upsert rest k v

def uniqueCells (cells : List Cell) : List Cell :=
  (cells.foldl (fun index cell => upsert index cell.location cell) []).map Prod.snd

def getLivingCells (world : World) : List Cell :=
  world.cells.filter isAlive

def getDeadNeighborsOfLivingCells (world : World) : List Cell :=
  uniqueCells
    (((world.cells.filter isAlive).map (getDeadCellNeighbors world)).foldl
      (fun acc curr => acc ++ curr) [])

def tick (world : World) : World :=
  { time := world.time + 1,
    cells := (getLivingCells world ++ getDeadNeighborsOfLivingCells world).map
      (getNextTickCell world) }

def origin : Location := { x := 0, y := 0 }

abbrev Pattern := Location → List Cell

def blinker2 : Pattern := fun center =>
  [ { location := { x := center.x - 1, y := center.y }, state := CellState.alive },
    { location := { x := center.x,     y := center.y }, state := CellState.alive },
    { location := { x := center.x + 1, y := center.y }, state := CellState.alive } ]

def translate (pattern : Pattern) (relative : Location) : Pattern :=
  let cells := pattern origin
  fun center =>
    cells.map (fun cell =>
      { cell with
        location :=
          { x := center.x + cell.location.x + relative.x,
            y := center.x + cell.location.y + relative.y } })

inductive Axis where
  | x
  | y
deriving DecidableEq, Repr

def mirror (pattern : Pattern) (axis : Axis) : Pattern :=
  let flip : Int := if axis = Axis.x then 1 else -1
  fun _center =>
    (pattern origin).map (fun cell =>
      { cell with
        location :=
          { x := flip * cell.location.x,
            y := -1 * flip * cell.location.y } })

inductive RotationDirection where
  | clockwise
  | counterclockwise
deriving DecidableEq, Repr

structure Rotation where
  direction : RotationDirection
  value : Int
  center : Location
deriving DecidableEq, Repr

def rotateLocation (l : Location) (rotation : Rotation) : Except String Location :=
  let flip : Int := if rotation.direction = RotationDirection.clockwise then 1 else -1
  let rot90 : Location → Location := fun p =>
    { x := flip * (p.y - rotation.center.y), y := -1 * flip * (p.x - rotation.center.x) }
  let nrot90 : Location → Location := fun p =>
    { x := -1 * flip * (p.y - rotation.center.y), y := flip * (p.x - rotation.center.x) }
  let rot180 : Location → Location := fun p => { x := -p.y, y := -p.x }
  if rotation.value = 90 ∨ rotation.value = -270 then Except.ok (rot90 l)
  else if rotation.value = -90 ∨ rotation.value = 270 then Except.ok (nrot90 l)
  else if rotation.value = 180 then Except.ok (rot180 l)
  else Except.error ""

def rotate (pattern : Pattern) (value : Int)
    (direction : RotationDirection := RotationDirection.counterclockwise) :
    Location → Except String (List Cell) :=
  fun center =>
    (pattern origin).mapM (fun p =>
      (rotateLocation p.location
        { direction := direction, value := value, center := center }).map
        (fun loc => { p with location := loc }))

def compose (patterns : List Pattern) : List Cell :=
  let cells := patterns.flatMap (fun pattern => pattern origin)
  uniqueCells cells.reverse

/-- Locations of the living cells of a world, as a finite set. -/
def livingLocations (world : World) : Finset Location :=
  ((world.cells.filter isAlive).map (fun c => c.location)).toFinset

/-- Number of living Moore neighbors of a location in a world. -/
def numLivingNeighborsAt (world : World) (l : Location) : Nat :=
  (getLivingCellNeighbors world { location := l, state := CellState.dead }).length

def blinkerWorld : World :=
  { time := 0,
    cells :=
      [ { location := { x := -1, y := 0 }, state := CellState.alive },
        { location := { x := 0, y := 0 }, state := CellState.alive },
        { location := { x := 1, y := 0 }, state := CellState.alive } ] }

def singleCellWorld : World :=
  { time := 0, cells := [ { location := { x := 0, y := 0 }, state := CellState.alive } ] }

/-- One-cell patterns used to exhibit how compose resolves a location collision. -/
def composeCexA : Pattern := fun _ =>
  [ { location := { x := 0, y := 0 }, state := CellState.alive } ]

def composeCexB : Pattern := fun _ =>
  [ { location := { x := 0, y := 0 }, state := CellState.dead } ]

theorem isCellAtLocation_iff (c : Cell) (l : Location) :
    isCellAtLocation c l = true ↔ c.location = l := by
  obtain ⟨⟨cx, cy⟩, cs⟩ := c
  obtain ⟨lx, ly⟩ := l
  simp [isCellAtLocation, Location.mk.injEq]

theorem isCellAtLocation_self (c : Cell) : isCellAtLocation c c.location = true := by
  exact (isCellAtLocation_iff c c.location).mpr rfl

theorem isAlive_eq_false_of_isDead (c : Cell) (h : isDead c = true) : isAlive c = false := by
  unfold isDead at h
  cases ha : isAlive c
  · rfl
  · rw [ha] at h
    simp at h

theorem isDead_of_isAlive_eq_false (c : Cell) (h : isAlive c = false) : isDead c = true := by
  unfold isDead
  rw [h]
  rfl

theorem getCell_location (w : World) (l : Location) : (getCell w l).location = l := by
  unfold getCell
  cases h : w.cells.find? (fun c => isCellAtLocation c l) with
  | none => rfl
  | some c =>
    have := List.find?_some h
    exact (isCellAtLocation_iff c l).mp this

theorem getCell_mem_or (w : World) (l : Location) :
    getCell w l ∈ w.cells ∨ getCell w l = { location := l, state := CellState.dead } := by
  unfold getCell
  cases h : w.cells.find? (fun c => isCellAtLocation c l) with
  | none => exact Or.inr rfl
  | some c => exact Or.inl (List.mem_of_find?_eq_some h)

theorem find?_location_of_nodup (cs : List Cell) (c : Cell) (hc : c ∈ cs)
    (hnd : (cs.map (fun x => x.location)).Nodup) :
    cs.find? (fun c' => isCellAtLocation c' c.location) = some c := by
  induction cs with
  | nil => cases hc
  | cons a rest ih =>
    rw [List.map_cons, List.nodup_cons] at hnd
    rcases List.mem_cons.mp hc with rfl | hmem
    · rw [List.find?_cons, isCellAtLocation_self]
    · have hne : isCellAtLocation a c.location = false := by
        cases h : isCellAtLocation a c.location
        · rfl
        · exfalso
          have : a.location = c.location := (isCellAtLocation_iff a c.location).mp h
          exact hnd.1 (this ▸ List.mem_map.mpr ⟨c, hmem, rfl⟩)
      rw [List.find?_cons, hne]
      exact ih hmem hnd.2

theorem getCell_of_mem (w : World) (c : Cell) (hc : c ∈ w.cells)
    (hnd : (w.cells.map (fun x => x.location)).Nodup) :
    getCell w c.location = c := by
  unfold getCell
  rw [find?_location_of_nodup w.cells c hc hnd]
  rfl

theorem getNextTickCell_location (w : World) (c : Cell) :
    (getNextTickCell w c).location = c.location := by
  unfold getNextTickCell
  dsimp only
  split
  · split
    · rfl
    · rfl
  · split
    · rfl
    · rfl

theorem getLivingCellNeighbors_congr (w : World) (c c' : Cell)
    (h : c.location = c'.location) :
    getLivingCellNeighbors w c = getLivingCellNeighbors w c' := by
  unfold getLivingCellNeighbors getCellNeighbors
  rw [h]

theorem upsert_find?_self (m : List (Location × Cell)) (k : Location) (v : Cell) :
    (upsert m k v).find? (fun p => p.1 == k) = some (k, v) := by
  induction m with
  | nil => simp [upsert]
  | cons hd rest ih =>
    obtain ⟨k', v'⟩ := hd
    by_cases h : k' = k
    · simp [upsert, h]
    · simp only [upsert, if_neg h, List.find?_cons]
      have : (k' == k) = false := by simp [h]
      rw [this]
      exact ih

theorem upsert_find?_ne (m : List (Location × Cell)) (k k' : Location) (v : Cell)
    (h : k' ≠ k) :
    (upsert m k v).find? (fun p => p.1 == k') = m.find? (fun p => p.1 == k') := by
  have hkk' : (k == k') = false := by
    cases hb : (k == k')
    · rfl
    · exact absurd (beq_iff_eq.mp hb).symm h
  induction m with
  | nil => simp [upsert, List.find?_cons, hkk']
  | cons hd rest ih =>
    obtain ⟨a, b⟩ := hd
    by_cases hak : a = k
    · subst hak
      simp [upsert, List.find?_cons, hkk']
    · simp only [upsert, if_neg hak, List.find?_cons]
      cases hak' : (a == k') <;> simp [ih]

theorem upsert_fst (m : List (Location × Cell)) (k : Location) (v : Cell) :
    (upsert m k v).map Prod.fst =
      if k ∈ m.map Prod.fst then m.map Prod.fst else m.map Prod.fst ++ [k] := by
  induction m with
  | nil => simp [upsert]
  | cons hd rest ih =>
    obtain ⟨a, b⟩ := hd
    by_cases hak : a = k
    · subst hak
      simp [upsert]
    · simp only [upsert, if_neg hak, List.map_cons]
      rw [ih]
      by_cases hk : k ∈ rest.map Prod.fst
      · rw [if_pos hk, if_pos (List.mem_cons.mpr (Or.inr hk))]
      · rw [if_neg hk, if_neg]
        · simp
        · intro hmem
          rcases List.mem_cons.mp hmem with h1 | h2
          · exact hak h1.symm
          · exact hk h2

theorem upsert_fst_nodup (m : List (Location × Cell)) (k : Location) (v : Cell)
    (h : (m.map Prod.fst).Nodup) : ((upsert m k v).map Prod.fst).Nodup := by
  rw [upsert_fst]
  by_cases hk : k ∈ m.map Prod.fst
  · rw [if_pos hk]
    exact h
  · rw [if_neg hk]
    rw [List.nodup_append]
    refine ⟨h, List.nodup_singleton k, ?_⟩
    intro a ha hb
    rw [List.mem_singleton] at hb
    exact hk (hb ▸ ha)

theorem mem_upsert (m : List (Location × Cell)) (k : Location) (v : Cell)
    (p : Location × Cell) (hp : p ∈ upsert m k v) : p ∈ m ∨ p = (k, v) := by
  induction m with
  | nil =>
    simp [upsert] at hp
    exact Or.inr hp
  | cons hd rest ih =>
    obtain ⟨a, b⟩ := hd
    by_cases hak : a = k
    · subst hak
      simp only [upsert, if_pos rfl] at hp
      rcases List.mem_cons.mp hp with h1 | h2
      · exact Or.inr h1
      · exact Or.inl (List.mem_cons.mpr (Or.inr h2))
    · simp only [upsert, if_neg hak] at hp
      rcases List.mem_cons.mp hp with h1 | h2
      · exact Or.inl (List.mem_cons.mpr (Or.inl h1))
      · rcases ih h2 with h3 | h4
        · exact Or.inl (List.mem_cons.mpr (Or.inr h3))
        · exact Or.inr h4

theorem foldl_upsert_find? (cells : List Cell) (m : List (Location × Cell)) (l : Location) :
    (cells.foldl (fun index cell => upsert index cell.location cell) m).find?
        (fun p => p.1 == l) =
      match cells.reverse.find? (fun c => c.location == l) with
      | some c => some (l, c)
      | none => m.find? (fun p => p.1 == l) := by
  induction cells generalizing m with
  | nil => rfl
  | cons c rest ih =>
    rw [List.foldl_cons, ih, List.reverse_cons, List.find?_append]
    cases h : rest.reverse.find? (fun c' => c'.location == l) with
    | some c' => rfl
    | none =>
      by_cases hcl : c.location = l
      · rw [hcl, upsert_find?_self]
        simp [List.find?_cons, Option.or, show (c.location == l) = true from beq_iff_eq.mpr hcl]
      · have hne : (c.location == l) = false := by
          cases hb : (c.location == l)
          · rfl
          · exact absurd (beq_iff_eq.mp hb) hcl
        rw [upsert_find?_ne m c.location l c (fun hh => hcl hh.symm)]
        simp [List.find?_cons, hne, Option.or]

theorem mem_foldl_upsert (cells : List Cell) (m : List (Location × Cell))
    (p : Location × Cell)
    (hp : p ∈ cells.foldl (fun index cell => upsert index cell.location cell) m) :
    p ∈ m ∨ (p.2 ∈ cells ∧ p.2.location = p.1) := by
  induction cells generalizing m with
  | nil => exact Or.inl hp
  | cons c rest ih =>
    rw [List.foldl_cons] at hp
    rcases ih (upsert m c.location c) hp with h1 | h2
    · rcases mem_upsert m c.location c p h1 with h3 | h4
      · exact Or.inl h3
      · subst h4
        exact Or.inr ⟨List.mem_cons_self c rest, rfl⟩
    · exact Or.inr ⟨List.mem_cons.mpr (Or.inr h2.1), h2.2⟩

theorem mem_uniqueCells (cells : List Cell) (c : Cell) (hc : c ∈ uniqueCells cells) :
    c ∈ cells := by
  unfold uniqueCells at hc
  obtain ⟨p, hp, hpc⟩ := List.mem_map.mp hc
  rcases mem_foldl_upsert cells [] p hp with h1 | h2
  · cases h1
  · exact hpc ▸ h2.1

theorem find?_map_snd (M : List (Location × Cell)) (l : Location)
    (inv : ∀ p ∈ M, p.2.location = p.1) :
    (M.map Prod.snd).find? (fun c => c.location == l) =
      (M.find? (fun p => p.1 == l)).map Prod.snd := by
  induction M with
  | nil => rfl
  | cons p rest ih =>
    have hploc : p.2.location = p.1 := inv p (List.mem_cons_self p rest)
    rw [List.map_cons, List.find?_cons, List.find?_cons, hploc]
    cases h : (p.1 == l)
    · exact ih (fun q hq => inv q (List.mem_cons.mpr (Or.inr hq)))
    · rfl

theorem uniqueCells_find? (cells : List Cell) (l : Location) :
    (uniqueCells cells).find? (fun c => c.location == l) =
      cells.reverse.find? (fun c => c.location == l) := by
  unfold uniqueCells
  rw [find?_map_snd _ l (fun p hp => ?_), foldl_upsert_find?]
  · cases h : cells.reverse.find? (fun c => c.location == l) <;> simp
  · rcases mem_foldl_upsert cells [] p hp with h1 | h2
    · cases h1
    · exact h2.2

theorem foldl_upsert_fst_nodup (cells : List Cell) (m : List (Location × Cell))
    (h : (m.map Prod.fst).Nodup) :
    ((cells.foldl (fun index cell => upsert index cell.location cell) m).map
      Prod.fst).Nodup := by
  induction cells generalizing m with
  | nil => exact h
  | cons c rest ih =>
    rw [List.foldl_cons]
    exact ih _ (upsert_fst_nodup m c.location c h)

theorem uniqueCells_nodup (cells : List Cell) :
    ((uniqueCells cells).map (fun c => c.location)).Nodup := by
  unfold uniqueCells
  rw [List.map_map]
  have hcongr :
      (cells.foldl (fun index cell => upsert index cell.location cell) []).map
          ((fun c => c.location) ∘ Prod.snd) =
        (cells.foldl (fun index cell => upsert index cell.location cell) []).map
          Prod.fst := by
    refine List.map_congr_left (fun p hp => ?_)
    rcases mem_foldl_upsert cells [] p hp with h1 | h2
    · cases h1
    · exact h2.2
  rw [hcongr]
  exact foldl_upsert_fst_nodup cells [] List.nodup_nil

theorem mem_map_location_iff_find? (xs : List Cell) (l : Location) :
    l ∈ xs.map (fun c => c.location) ↔
      (xs.find? (fun c => c.location == l)).isSome = true := by
  rw [List.find?_isSome]
  simp [List.mem_map, beq_iff_eq]

theorem uniqueCells_locations (cells : List Cell) (l : Location) :
    l ∈ (uniqueCells cells).map (fun c => c.location) ↔
      l ∈ cells.map (fun c => c.location) := by
  rw [mem_map_location_iff_find?, mem_map_location_iff_find?, uniqueCells_find?,
    List.find?_isSome, List.find?_isSome]
  constructor
  · rintro ⟨c, hc, hcl⟩
    exact ⟨c, List.mem_reverse.mp hc, hcl⟩
  · rintro ⟨c, hc, hcl⟩
    exact ⟨c, List.mem_reverse.mpr hc, hcl⟩

theorem mem_foldl_append (xss : List (List Cell)) (init : List Cell) (x : Cell) :
    x ∈ xss.foldl (fun acc curr => acc ++ curr) init ↔
      x ∈ init ∨ ∃ xs ∈ xss, x ∈ xs := by
  induction xss generalizing init with
  | nil => simp
  | cons xs rest ih =>
    rw [List.foldl_cons, ih]
    simp [List.mem_append]
    tauto

theorem mem_getDeadNeighborsOfLivingCells (w : World) (d : Cell)
    (hd : d ∈ getDeadNeighborsOfLivingCells w) :
    isDead d = true ∧ d = getCell w d.location := by
  have hmem := mem_uniqueCells _ d hd
  rw [mem_foldl_append] at hmem
  rcases hmem with h1 | ⟨xs, hxs, hdxs⟩
  · cases h1
  · obtain ⟨c, _, rfl⟩ := List.mem_map.mp hxs
    unfold getDeadCellNeighbors at hdxs
    have hdead := List.of_mem_filter hdxs
    have hnb := List.mem_of_mem_filter hdxs
    unfold getCellNeighbors at hnb
    obtain ⟨nl, _, rfl⟩ := List.mem_map.mp hnb
    refine ⟨hdead, ?_⟩
    rw [getCell_location w nl]

/-- C1: starting from the generation-0 world whose cells are exactly the three
living cells (-1,0),(0,0),(1,0), the set of living-cell locations after one
tick is exactly the vertical triple (0,-1),(0,0),(0,1), and after two ticks it
is the original horizontal triple again (period-2 blinker, compared as sets). -/
theorem blinker_period_two :
    livingLocations (tick blinkerWorld) =
        ({ { x := 0, y := -1 }, { x := 0, y := 0 }, { x := 0, y := 1 } } : Finset Location) ∧
      livingLocations (tick (tick blinkerWorld)) =
        ({ { x := -1, y := 0 }, { x := 0, y := 0 }, { x := 1, y := 0 } } : Finset Location) := by
  decide

/-- C2: for every world and every location no tracked cell occupies, getCell
returns the synthetic dead cell at that location; getCell is a total function,
so the query never fails. -/
theorem getCell_absent (w : World) (l : Location)
    (h : ∀ c ∈ w.cells, c.location ≠ l) :
    getCell w l = { location := l, state := CellState.dead } := by
  unfold getCell
  have hnone : w.cells.find? (fun c => isCellAtLocation c l) = none := by
    rw [List.find?_eq_none]
    intro c hc hcl
    exact h c hc ((isCellAtLocation_iff c l).mp hcl)
  rw [hnone]
  rfl

/-- Witness for C2 at the blinker world and the untracked location (5,5). -/
theorem getCell_absent_witness :
    (∀ c ∈ blinkerWorld.cells, c.location ≠ ({ x := 5, y := 5 } : Location)) ∧
      getCell blinkerWorld { x := 5, y := 5 } =
        { location := { x := 5, y := 5 }, state := CellState.dead } :=
  ⟨by decide, getCell_absent blinkerWorld { x := 5, y := 5 } (by decide)⟩

/-- C3 (counterexample): for the world holding the single living cell (0,0),
the location (1,1) is dead, neighbors a living cell and has one living
neighbor, yet tick does include a cell at (1,1) in the next world's cell
collection (an explicit dead cell), contradicting the claim that the location
is simply not included. -/
theorem tick_includes_dead_candidate :
    (∀ c ∈ singleCellWorld.cells,
        c.location = ({ x := 1, y := 1 } : Location) → isDead c = true) ∧
      (∃ c ∈ singleCellWorld.cells, isAlive c = true ∧
        ({ x := 1, y := 1 } : Location) ∈ neighborLocations c.location) ∧
      numLivingNeighborsAt singleCellWorld { x := 1, y := 1 } ≠ 3 ∧
      (∃ c ∈ (tick singleCellWorld).cells,
        c.location = ({ x := 1, y := 1 } : Location)) := by
  decide

/-- C3 (amended): a dead location that neighbors a living cell and has a
living-neighbor count other than 3 stays dead after tick: every cell of the
next world's collection at that location is dead (the candidate is kept in the
collection as an explicit dead cell rather than being omitted). -/
theorem tick_dead_stays_dead (w : World) (l : Location)
    (hdead : ∀ c ∈ w.cells, c.location = l → isDead c = true)
    (_hnbr : ∃ c ∈ w.cells, isAlive c = true ∧ l ∈ neighborLocations c.location)
    (hcount : numLivingNeighborsAt w l ≠ 3) :
    ∀ c ∈ (tick w).cells, c.location = l → isDead c = true := by
  intro c hc hcl
  unfold tick at hc
  dsimp only at hc
  obtain ⟨c0, hc0, rfl⟩ := List.mem_map.mp hc
  have hloc : c0.location = l := by
    rw [← getNextTickCell_location w c0]
    exact hcl
  rcases List.mem_append.mp hc0 with hliv | hdn
  · unfold getLivingCells at hliv
    have hmem := List.mem_of_mem_filter hliv
    have halive := List.of_mem_filter hliv
    have hdd := hdead c0 hmem hloc
    rw [isAlive_eq_false_of_isDead c0 hdd] at halive
    cases halive
  · obtain ⟨hdd, _⟩ := mem_getDeadNeighborsOfLivingCells w c0 hdn
    have hfalse : isAlive c0 = false := isAlive_eq_false_of_isDead c0 hdd
    have hcnt : (getLivingCellNeighbors w c0).length = numLivingNeighborsAt w l := by
      unfold numLivingNeighborsAt
      rw [getLivingCellNeighbors_congr w c0 { location := l, state := CellState.dead } hloc]
    have hb : ((getLivingCellNeighbors w c0).length == 3) = false := by
      rw [hcnt]
      cases hbb : (numLivingNeighborsAt w l == 3)
      · rfl
      · exact absurd (beq_iff_eq.mp hbb) hcount
    unfold getNextTickCell
    simp only [hfalse, hb]
    simp [hdd]

/-- Witness for the amended C3 at the blinker world and location (1,1), which
is dead, neighbors living cells, and has 2 living neighbors. -/
theorem tick_dead_stays_dead_witness :
    (∀ c ∈ blinkerWorld.cells,
        c.location = ({ x := 1, y := 1 } : Location) → isDead c = true) ∧
      (∃ c ∈ blinkerWorld.cells, isAlive c = true ∧
        ({ x := 1, y := 1 } : Location) ∈ neighborLocations c.location) ∧
      numLivingNeighborsAt blinkerWorld { x := 1, y := 1 } ≠ 3 ∧
      ∀ c ∈ (tick blinkerWorld).cells,
        c.location = ({ x := 1, y := 1 } : Location) → isDead c = true :=
  ⟨by decide, by decide, by decide,
    tick_dead_stays_dead blinkerWorld { x := 1, y := 1 } (by decide) (by decide) (by decide)⟩

/-- C4: if a world's cell collection has at most one cell per distinct
location, so does the cell collection produced by tick. -/
theorem tick_preserves_location_nodup (w : World)
    (h : (w.cells.map (fun c => c.location)).Nodup) :
    ((tick w).cells.map (fun c => c.location)).Nodup := by
  unfold tick
  dsimp only
  rw [List.map_map]
  have hfun : ((fun c : Cell => c.location) ∘ getNextTickCell w) =
      fun c : Cell => c.location :=
    funext (fun c => getNextTickCell_location w c)
  rw [hfun, List.map_append, List.nodup_append]
  refine ⟨?_, uniqueCells_nodup _, ?_⟩
  · unfold getLivingCells
    exact List.Nodup.sublist (List.Sublist.map _ (List.filter_sublist w.cells)) h
  · intro l hl hr
    obtain ⟨c0, hc0, rfl⟩ := List.mem_map.mp hl
    obtain ⟨d, hd, hdl⟩ := List.mem_map.mp hr
    unfold getLivingCells at hc0
    have hc0mem := List.mem_of_mem_filter hc0
    have hc0alive := List.of_mem_filter hc0
    obtain ⟨hdd, hdg⟩ := mem_getDeadNeighborsOfLivingCells w d hd
    have hgc : getCell w c0.location = c0 := getCell_of_mem w c0 hc0mem h
    rw [hdl, hgc] at hdg
    rw [hdg] at hdd
    rw [isAlive_eq_false_of_isDead c0 hdd] at hc0alive
    cases hc0alive

/-- Witness for C4 at the blinker world. -/
theorem tick_preserves_location_nodup_witness :
    (blinkerWorld.cells.map (fun c => c.location)).Nodup ∧
      ((tick blinkerWorld).cells.map (fun c => c.location)).Nodup :=
  ⟨by decide, tick_preserves_location_nodup blinkerWorld (by decide)⟩

/-- C5 (counterexample): composing a pattern with a living cell at (0,0)
before a pattern with a dead cell at (0,0) keeps the cell of the FIRST
pattern: compose reverses the concatenated cells before de-duplicating, so the
earlier entry wins, not the later one. -/
theorem compose_keeps_first :
    compose [composeCexA, composeCexB] =
        [ { location := { x := 0, y := 0 }, state := CellState.alive } ] ∧
      ({ location := { x := 0, y := 0 }, state := CellState.dead } : Cell) ∉
        compose [composeCexA, composeCexB] := by
  decide

/-- C5 (amended): compose returns a de-duplicated cell list with at most one
cell per distinct location, and on location collisions the cell kept is the
one from the EARLIER entry in the input order (first-write-wins): the first
match in the de-duplicated result equals the first match in the concatenation
of the patterns' cells in input order. -/
theorem compose_first_wins (ps : List Pattern) (l : Location) :
    ((compose ps).map (fun c => c.location)).Nodup ∧
      (compose ps).find? (fun c => c.location == l) =
        (ps.flatMap (fun pattern => pattern origin)).find?
          (fun c => c.location == l) := by
  refine ⟨uniqueCells_nodup _, ?_⟩
  show (uniqueCells (ps.flatMap (fun pattern => pattern origin)).reverse).find? _ = _
  rw [uniqueCells_find?, List.reverse_reverse]

/-- C6: the rotation helper rejects -180 even though the declared
RotationValue type includes it: the switch in rotateLocation has no case for
-180, so both rotateLocation and rotate signal the invalid-argument error on
it, contradicting the claim that all six of plus-or-minus 90/180/270 are
accepted. -/
theorem rotateLocation_rejects_neg180 :
    rotateLocation { x := 0, y := 0 }
        { direction := RotationDirection.counterclockwise, value := -180,
          center := { x := 0, y := 0 } } = Except.error "" ∧
      rotate blinker2 (-180) RotationDirection.counterclockwise { x := 0, y := 0 } =
        Except.error "" :=
  ⟨rfl, rfl⟩

/-- C7 (counterexample): translating the blinker by relative offset (0,0)
about center (1,0) shifts the y-coordinates by the CENTER'S X-COORDINATE
(giving y = 1), not by its y-coordinate (which would keep y = 0). -/
theorem translate_uses_center_x :
    translate blinker2 { x := 0, y := 0 } { x := 1, y := 0 } =
        [ { location := { x := 0, y := 1 }, state := CellState.alive },
          { location := { x := 1, y := 1 }, state := CellState.alive },
          { location := { x := 2, y := 1 }, state := CellState.alive } ] ∧
      translate blinker2 { x := 0, y := 0 } { x := 1, y := 0 } ≠
        [ { location := { x := 0, y := 0 }, state := CellState.alive },
          { location := { x := 1, y := 0 }, state := CellState.alive },
          { location := { x := 2, y := 0 }, state := CellState.alive } ] := by
  decide

/-- C7 (amended): every cell of translate(p, r)(c) is the corresponding cell
of p at the origin with new x = c.x + old x + r.x and new y = c.x + old y +
r.y: the code uses the center's x-coordinate in both components. -/
theorem mem_translate (p : Pattern) (r c : Location) (d : Cell) :
    d ∈ translate p r c ↔
      ∃ cl ∈ p origin,
        d = { cl with
              location :=
                { x := c.x + cl.location.x + r.x,
                  y := c.x + cl.location.y + r.y } } := by
  unfold translate
  simp only [List.mem_map]
  constructor
  · rintro ⟨cl, hcl, rfl⟩
    exact ⟨cl, hcl, rfl⟩
  · rintro ⟨cl, hcl, rfl⟩
    exact ⟨cl, hcl, rfl⟩

/-- C8 (counterexample): rotating by 90 about center (1,0) maps the center
itself to the origin (0,0), not back to (1,0): the rotation formulas subtract
the center but never add it back, so the rotation does not fix its center. -/
theorem rotateLocation_moves_center :
    rotateLocation { x := 1, y := 0 }
        { direction := RotationDirection.counterclockwise, value := 90,
          center := { x := 1, y := 0 } } = Except.ok { x := 0, y := 0 } ∧
      ({ x := 0, y := 0 } : Location) ≠ { x := 1, y := 0 } :=
  ⟨rfl, by decide⟩

/-- C8 (amended): for every accepted quarter-turn value (90, -90, 270, -270)
and every direction, rotateLocation maps a location equal to the center c to
the origin (0,0); for value 180 it maps c to (-c.y, -c.x). The center is
therefore fixed only when it is the origin. -/
theorem rotateLocation_center_image (v : Int) (d : RotationDirection) (c : Location) :
    ((v = 90 ∨ v = -90 ∨ v = 270 ∨ v = -270) →
        rotateLocation c { direction := d, value := v, center := c } =
          Except.ok { x := 0, y := 0 }) ∧
      (v = 180 →
        rotateLocation c { direction := d, value := v, center := c } =
          Except.ok { x := -c.y, y := -c.x }) := by
  constructor
  · rintro (rfl | rfl | rfl | rfl) <;> cases d <;>
      simp [rotateLocation, sub_self, mul_zero]
  · rintro rfl
    cases d <;> simp [rotateLocation]

/-- Witness for the amended C8 at center (5,7), clockwise, values 90 and 180. -/
theorem rotateLocation_center_image_witness :
    rotateLocation { x := 5, y := 7 }
        { direction := RotationDirection.clockwise, value := 90,
          center := { x := 5, y := 7 } } = Except.ok { x := 0, y := 0 } ∧
      rotateLocation { x := 5, y := 7 }
        { direction := RotationDirection.clockwise, value := 180,
          center := { x := 5, y := 7 } } = Except.ok { x := -7, y := -5 } :=
  ⟨(rotateLocation_center_image 90 RotationDirection.clockwise { x := 5, y := 7 }).1
      (Or.inl rfl),
    (rotateLocation_center_image 180 RotationDirection.clockwise { x := 5, y := 7 }).2 rfl⟩

/-- C9: mirror is a true reflection for both axes and any center argument:
mirroring across x maps each cell at (x, y) to (x, -y) and mirroring across y
maps each cell at (x, y) to (-x, y): exactly the coordinate orthogonal to the
mirror axis is negated. -/
theorem mem_mirror (p : Pattern) (center : Location) (d : Cell) :
    (d ∈ mirror p Axis.x center ↔
        ∃ cl ∈ p origin,
          d = { cl with
                location := { x := cl.location.x, y := -cl.location.y } }) ∧
      (d ∈ mirror p Axis.y center ↔
        ∃ cl ∈ p origin,
          d = { cl with
                location := { x := -cl.location.x, y := cl.location.y } }) := by
  constructor
  · simp [mirror, List.mem_map, eq_comm]
  · simp [mirror, List.mem_map, eq_comm]

/-- C10: uniqueCells keeps at most one cell per distinct location, preserves
the set of locations of the input, and for each location keeps the last cell
with that location in input order (last-write-wins, mirroring the JS Map). -/
theorem uniqueCells_spec (cells : List Cell) (l : Location) :
    ((uniqueCells cells).map (fun c => c.location)).Nodup ∧
      (l ∈ (uniqueCells cells).map (fun c => c.location) ↔
        l ∈ cells.map (fun c => c.location)) ∧
      (uniqueCells cells).find? (fun c => c.location == l) =
        cells.reverse.find? (fun c => c.location == l) :=
  ⟨uniqueCells_nodup cells, uniqueCells_locations cells l, uniqueCells_find? cells l⟩

end GameOfLife
